import Mathlib

/-!
Shallow embedding of `capture_window.py` (class `SignalCaptureWindow`).

Timestamps are modelled as exact rationals, RSSI values as integers.
Python dictionaries are modelled as association lists with Python's
insertion semantics (update in place if the key exists, else append at the
end), so key order and uniqueness behave as in CPython.  A raised Python
exception is modelled with `Except String`; the mutation of the object's
buffer that has already happened before a raise is preserved by returning
the new buffer alongside the `Except` result.  The float expression
`10**(rssi/10)` used by the `tss` filter is kept symbolically as the list
of summand exponents (`PyVal.tssV`) and interpreted into `ℝ` by
`pyRealValue`, the exact-real idealization of the float arithmetic.
-/

namespace CaptureWindow

/-- A row of the readings stack: `{'timestamp': …, 'mac_sensor': …, 'rssi': …}`. -/
structure Reading where
  timestamp : ℚ
  mac_sensor : String
  rssi : ℤ
deriving DecidableEq, Repr

/-- The constructor arguments of `SignalCaptureWindow.__init__`, all stored
unchanged as private attributes. -/
structure Config where
  sensor_mac_list : List String
  min_window_size : ℚ
  max_window_size : ℚ
  min_entries_per_sensor : ℤ
  min_valid_sensors : ℤ
  filter_method : String
  invalid_sensor_value : ℤ
deriving DecidableEq, Repr

/-- Values stored in a fingerprint dictionary.  `intV` for the floored
integer aggregates and the sentinel, `ratV` for the timestamp, `tssV` for
the unfloored `tss` power sum, carried symbolically as the list of rssi
values being summed over. -/
inductive PyVal where
  | intV : ℤ → PyVal
  | ratV : ℚ → PyVal
  | tssV : List ℤ → PyVal
deriving DecidableEq, Repr

/-- Exact-real meaning of a fingerprint value; `tssV rs` denotes
`sum of 10**(r/10) for r in rs`. -/
noncomputable def pyRealValue : PyVal → ℝ
  | PyVal.intV z => (z : ℝ)
  | PyVal.ratV q => (q : ℝ)
  | PyVal.tssV rs => (rs.map (fun (v : ℤ) => (10 : ℝ) ^ ((v : ℝ) / 10))).sum

/-- A Python dict with string keys, as an ordered association list. -/
abbrev Dict := List (String × PyVal)

/-- `d[k] = v` on a Python dict: update the entry in place when the key is
present (keeping its position), otherwise append at the end.  Keys of a
Python dict are unique, so updating the first occurrence is exact. -/
def dictInsert : Dict → String → PyVal → Dict
  | [], k, v => [(k, v)]
  | p :: d, k, v => if p.1 = k then (k, v) :: d else p :: dictInsert d k v

/-- `d[k]`: the value at the first occurrence of the key. -/
def dictGet : Dict → String → Option PyVal
  | [], _ => none
  | p :: d, k => if p.1 = k then some p.2 else dictGet d k

/-- `k in d`. -/
def hasKey : Dict → String → Bool
  | [], _ => false
  | p :: d, k => p.1 = k || hasKey d k

/-- Number of entries of `d` carrying key `k` (1 or 0 for a real dict). -/
def keyCount : Dict → String → Nat
  | [], _ => 0
  | p :: d, k => (if p.1 = k then 1 else 0) + keyCount d k

/-- Well-formedness of the association-list model: keys are unique, as in
every actual Python dict. -/
def DictWF (d : Dict) : Prop :=
  (d.map Prod.fst).Nodup

/-- `{**d1, **d2}`: start from the entries of `d1` and write every entry of
`d2` on top. -/
def dictMerge (d1 d2 : Dict) : Dict :=
  d2.foldl (fun acc p => dictInsert acc p.1 p.2) d1

/-- The eviction loop of `process_reading` (lines 59-60):
`while len(stack) > 0 and timestamp - stack[0]['timestamp'] > max_window_size: stack.pop(0)`. -/
def evict (cfg : Config) (timestamp : ℚ) : List Reading → List Reading
  | [] => []
  | h :: tl =>
      if timestamp - h.timestamp > cfg.max_window_size then evict cfg timestamp tl
      else h :: tl

/-- `check_valid_window` (lines 80-104). -/
def check_valid_window (cfg : Config) (stack : List Reading) (timestamp : ℚ) : Bool :=
  match stack with
  | [] => false
  | h :: _ =>
      if ¬ (timestamp - h.timestamp ≥ cfg.min_window_size) then false
      else
        let valid_sensors :=
          (cfg.sensor_mac_list.filter
            (fun mac =>
              ((stack.filter (fun r => r.mac_sensor = mac)).length : ℤ)
                ≥ cfg.min_entries_per_sensor)).length
        if (valid_sensors : ℤ) < cfg.min_valid_sensors then false
        else true

/-- `math.floor(np.mean(xs))`; `np.mean([])` is NaN and `math.floor` of it
raises, which the count guard makes unreachable unless
`min_entries_per_sensor <= 0`. -/
def meanFloor (l : List ℤ) : Except String ℤ :=
  match l with
  | [] => Except.error "cannot convert float NaN to integer"
  | _ => Except.ok ⌊((l.sum : ℚ) / (l.length : ℚ))⌋

/-- `math.floor(np.median(xs))`: sort ascending; middle element when the
length is odd, floor of the average of the two middle elements otherwise. -/
def medianFloor (l : List ℤ) : Except String ℤ :=
  match l with
  | [] => Except.error "cannot convert float NaN to integer"
  | _ =>
      let s := l.mergeSort (fun a b => decide (a ≤ b))
      let n := s.length
      if n % 2 = 1 then Except.ok (s.getD (n / 2) 0)
      else Except.ok ⌊(((s.getD (n / 2 - 1) 0 : ℚ) + (s.getD (n / 2) 0 : ℚ)) / 2)⌋

/-- Inner fold for `modeMin`: pick the value with the strictly largest
count, scanning candidates in ascending order so ties keep the smallest. -/
def modePick (l : List ℤ) (cands : List ℤ) (best : ℤ) (bestCount : Nat) : ℤ :=
  match cands with
  | [] => best
  | c :: cs =>
      if l.count c > bestCount then modePick l cs c (l.count c)
      else modePick l cs best bestCount

/-- `math.floor(stats.mode(xs)[0])`: the most frequent value, ties broken
by the smallest value among the modes (floor is a no-op on integers). -/
def modeMin (l : List ℤ) : Except String ℤ :=
  match (l.mergeSort (fun a b => decide (a ≤ b))).dedup with
  | [] => Except.error "mode of empty sequence"
  | c :: cs => Except.ok (modePick l cs c (l.count c))

/-- `math.floor(np.max(xs))` (floor is a no-op on integers). -/
def maxFloor (l : List ℤ) : Except String ℤ :=
  match l.max? with
  | none => Except.error "zero-size array to reduction operation maximum"
  | some v => Except.ok v

/-- `math.floor(np.min(xs))` (floor is a no-op on integers). -/
def minFloor (l : List ℤ) : Except String ℤ :=
  match l.min? with
  | none => Except.error "zero-size array to reduction operation minimum"
  | some v => Except.ok v

/-- One iteration of the loop body of `compose_fingerprint_data`
(lines 118-140): the value written for `sensor_mac`, or the exception the
iteration raises. -/
def composeSensor (cfg : Config) (readings_stack : List Reading) (sensor_mac : String) :
    Except String PyVal :=
  let sensor_readings := readings_stack.filter (fun x => x.mac_sensor = sensor_mac)
  if ((sensor_readings.length : ℤ) ≥ cfg.min_entries_per_sensor) then
    let rssis := sensor_readings.map (fun x => x.rssi)
    if cfg.filter_method = "mean" then (meanFloor rssis).map PyVal.intV
    else if cfg.filter_method = "median" then (medianFloor rssis).map PyVal.intV
    else if cfg.filter_method = "mode" then (modeMin rssis).map PyVal.intV
    else if cfg.filter_method = "max" then (maxFloor rssis).map PyVal.intV
    else if cfg.filter_method = "min" then (minFloor rssis).map PyVal.intV
    else if cfg.filter_method = "tss" then Except.ok (PyVal.tssV rssis)
    else Except.error "Invalid filtering type"
  else Except.ok (PyVal.intV cfg.invalid_sensor_value)

/-- The loop of `compose_fingerprint_data` over `sensor_mac_list`, building
the fingerprint dict; a raise aborts the loop. -/
def composeGo (cfg : Config) (readings_stack : List Reading) :
    List String → Dict → Except String Dict
  | [], fp => Except.ok fp
  | mac :: rest, fp =>
      match composeSensor cfg readings_stack mac with
      | Except.error e => Except.error e
      | Except.ok v => composeGo cfg readings_stack rest (dictInsert fp mac v)

/-- `compose_fingerprint_data` (lines 106-142). -/
def compose_fingerprint_data (cfg : Config) (readings_stack : List Reading) :
    Except String Dict :=
  composeGo cfg readings_stack cfg.sensor_mac_list []

/-- `process_reading` (lines 36-78).  Returns the buffer after the call
(the mutation survives a raise) together with the call's outcome:
`ok none` for `return None`, `ok (some fp)` for a fingerprint, `error` for
a propagated exception. -/
def process_reading (cfg : Config) (stack : List Reading) (timestamp : ℚ)
    (mac_sensor : String) (rssi : ℤ) (aggregate_data : Option Dict) :
    List Reading × Except String (Option Dict) :=
  let stack1 := stack ++ [⟨timestamp, mac_sensor, rssi⟩]
  let stack2 := evict cfg timestamp stack1
  if check_valid_window cfg stack2 timestamp = false then (stack2, Except.ok none)
  else
    match compose_fingerprint_data cfg stack2 with
    | Except.error e => ([], Except.error e)
    | Except.ok fp0 =>
        let fp1 := dictInsert fp0 "timestamp" (PyVal.ratV timestamp)
        match aggregate_data with
        | none => ([], Except.ok (some fp1))
        | some ag => ([], Except.ok (some (dictMerge ag fp1)))

/-- The buffer after a sequence of direct `process_reading` calls
(no aggregate data), starting from `stack`. -/
def ingestAll (cfg : Config) (stack : List Reading) : List Reading → List Reading
  | [] => stack
  | r :: rs =>
      ingestAll cfg (process_reading cfg stack r.timestamp r.mac_sensor r.rssi none).1 rs

/-- The loop of `process_readings` (lines 167-180): thread the buffer,
collect every non-`None` fingerprint in order, propagate a raise. -/
def runBatch (cfg : Config) : List Reading → List Reading →
    List Reading × Except String (List Dict)
  | stack, [] => (stack, Except.ok [])
  | stack, r :: rest =>
      match process_reading cfg stack r.timestamp r.mac_sensor r.rssi none with
      | (stack2, Except.error e) => (stack2, Except.error e)
      | (stack2, Except.ok none) => runBatch cfg stack2 rest
      | (stack2, Except.ok (some fp)) =>
          match runBatch cfg stack2 rest with
          | (s, Except.ok fps) => (s, Except.ok (fp :: fps))
          | (s, Except.error e) => (s, Except.error e)

/-- `process_readings` (lines 144-187) with default column names and no
aggregate heads: optionally reset the stack before and after the batch. -/
def process_readings (cfg : Config) (stack : List Reading) (readings : List Reading)
    (reset_readings_stack : Bool) : List Reading × Except String (List Dict) :=
  let s0 := if reset_readings_stack then [] else stack
  match runBatch cfg s0 readings with
  | (s1, Except.ok fps) => ((if reset_readings_stack then [] else s1), Except.ok fps)
  | (s1, Except.error e) => (s1, Except.error e)

theorem dictGet_dictInsert_self (d : Dict) (k : String) (v : PyVal) :
    dictGet (dictInsert d k v) k = some v := by
  induction d with
  | nil => simp [dictInsert, dictGet]
  | cons p d ih =>
      by_cases h : p.1 = k
      · simp [dictInsert, dictGet, h]
      · simp [dictInsert, dictGet, h, ih]

theorem dictGet_dictInsert_ne (d : Dict) (k k' : String) (v : PyVal) (h : k' ≠ k) :
    dictGet (dictInsert d k v) k' = dictGet d k' := by
  induction d with
  | nil => simp [dictInsert, dictGet, Ne.symm h]
  | cons p d ih =>
      by_cases hp : p.1 = k
      · simp [dictInsert, dictGet, hp, Ne.symm h]
      · by_cases hp' : p.1 = k'
        · simp [dictInsert, dictGet, hp, hp', h]
        · simp [dictInsert, dictGet, hp, hp', ih]

theorem hasKey_dictInsert (d : Dict) (k k' : String) (v : PyVal) :
    hasKey (dictInsert d k v) k' = (hasKey d k' || k' = k) := by
  induction d with
  | nil =>
      by_cases hk : k' = k
      · subst hk; simp [dictInsert, hasKey]
      · simp [dictInsert, hasKey, hk, Ne.symm hk]
  | cons p d ih =>
      by_cases hp : p.1 = k
      · by_cases hk : k' = k
        · subst hk; simp [dictInsert, hasKey, hp]
        · simp [dictInsert, hasKey, hp, hk, Ne.symm hk]
      · simp [dictInsert, hasKey, hp, ih, Bool.or_assoc]

theorem keyCount_dictInsert_self (d : Dict) (k : String) (v : PyVal) :
    keyCount (dictInsert d k v) k = if hasKey d k then keyCount d k else 1 := by
  induction d with
  | nil => simp [dictInsert, keyCount, hasKey]
  | cons p d ih =>
      by_cases hp : p.1 = k
      · simp [dictInsert, keyCount, hasKey, hp]
      · simp [dictInsert, keyCount, hasKey, hp, ih]

theorem keyCount_dictInsert_ne (d : Dict) (k k' : String) (v : PyVal) (h : k' ≠ k) :
    keyCount (dictInsert d k v) k' = keyCount d k' := by
  induction d with
  | nil => simp [dictInsert, keyCount, Ne.symm h]
  | cons p d ih =>
      by_cases hp : p.1 = k
      · simp [dictInsert, keyCount, hp, Ne.symm h]
      · simp [dictInsert, keyCount, hp, ih]

theorem hasKey_false_keyCount (d : Dict) (k : String) (h : hasKey d k = false) :
    keyCount d k = 0 := by
  induction d with
  | nil => simp [keyCount]
  | cons p d ih =>
      simp [hasKey] at h
      simp [keyCount, h.1, ih h.2]

theorem hasKey_true_keyCount_pos (d : Dict) (k : String) (h : hasKey d k = true) :
    1 ≤ keyCount d k := by
  induction d with
  | nil => simp [hasKey] at h
  | cons p d ih =>
      by_cases hp : p.1 = k
      · simp [keyCount, hp]
      · simp [hasKey, hp] at h
        simp [keyCount, hp]
        exact ih h

theorem hasKey_iff_mem_keys (d : Dict) (k : String) :
    hasKey d k = true ↔ k ∈ d.map Prod.fst := by
  induction d with
  | nil => simp [hasKey]
  | cons p d ih =>
      simp only [hasKey, Bool.or_eq_true, decide_eq_true_eq, ih, List.map_cons, List.mem_cons]
      exact or_congr eq_comm Iff.rfl

theorem keys_dictInsert (d : Dict) (k : String) (v : PyVal) :
    (dictInsert d k v).map Prod.fst =
      if hasKey d k then d.map Prod.fst else d.map Prod.fst ++ [k] := by
  induction d with
  | nil => simp [dictInsert, hasKey]
  | cons p d ih =>
      by_cases hp : p.1 = k
      · simp [dictInsert, hasKey, hp]
      · simp only [dictInsert, hasKey, if_neg hp, List.map_cons, ih]
        by_cases hd : hasKey d k
        · simp [hd, hp]
        · simp [hd, hp]

theorem DictWF_dictInsert (d : Dict) (k : String) (v : PyVal) (h : DictWF d) :
    DictWF (dictInsert d k v) := by
  unfold DictWF at h ⊢
  rw [keys_dictInsert]
  by_cases hd : hasKey d k
  · simpa [hd]
  · rw [if_neg (by simp [hd])]
    rw [List.nodup_append]
    refine ⟨h, List.nodup_singleton k, ?_⟩
    intro a ha hb
    simp only [List.mem_singleton] at hb
    exact hd ((hasKey_iff_mem_keys d k).mpr (hb ▸ ha))

theorem DictWF_keyCount_le_one (d : Dict) (k : String) (h : DictWF d) :
    keyCount d k ≤ 1 := by
  induction d with
  | nil => simp [keyCount]
  | cons p d ih =>
      rw [DictWF, List.map_cons, List.nodup_cons] at h
      by_cases hp : p.1 = k
      · have hnk : hasKey d k = false := by
          rw [Bool.eq_false_iff]
          intro hc
          exact h.1 (hp ▸ (hasKey_iff_mem_keys d k).mp hc)
        simp [keyCount, hp, hasKey_false_keyCount d k hnk]
      · simp only [keyCount, if_neg hp, Nat.zero_add]
        exact ih h.2

theorem dictMerge_cons (d1 : Dict) (p : String × PyVal) (d2 : Dict) :
    dictMerge d1 (p :: d2) = dictMerge (dictInsert d1 p.1 p.2) d2 := rfl

theorem dictGet_dictMerge (d1 d2 : Dict) (k : String) (h2 : DictWF d2) :
    dictGet (dictMerge d1 d2) k = if hasKey d2 k then dictGet d2 k else dictGet d1 k := by
  induction d2 generalizing d1 with
  | nil => simp [dictMerge, hasKey, dictGet]
  | cons p d2 ih =>
      rw [DictWF, List.map_cons, List.nodup_cons] at h2
      rw [dictMerge_cons, ih _ h2.2]
      by_cases hhk : hasKey d2 k = true
      · have hpk : ¬ p.1 = k := by
          intro hc
          exact h2.1 (hc ▸ (hasKey_iff_mem_keys d2 k).mp hhk)
        simp [hasKey, dictGet, hhk, hpk]
      · simp only [Bool.not_eq_true] at hhk
        by_cases hkp : k = p.1
        · subst hkp
          simp [hasKey, dictGet, hhk, dictGet_dictInsert_self]
        · simp [hasKey, dictGet, hhk, Ne.symm hkp, hkp,
            dictGet_dictInsert_ne d1 p.1 k p.2 hkp]

theorem keyCount_dictMerge_not_has (d1 d2 : Dict) (k : String) (h : hasKey d2 k = false) :
    keyCount (dictMerge d1 d2) k = keyCount d1 k := by
  induction d2 generalizing d1 with
  | nil => simp [dictMerge]
  | cons p d2 ih =>
      simp only [hasKey, Bool.or_eq_false_iff, decide_eq_false_iff_not] at h
      rw [dictMerge_cons, ih _ h.2, keyCount_dictInsert_ne d1 p.1 k p.2 (Ne.symm h.1)]

theorem keyCount_dictMerge_has (d1 d2 : Dict) (k : String) (h2 : DictWF d2)
    (h1 : keyCount d1 k ≤ 1) (h : hasKey d2 k = true) :
    keyCount (dictMerge d1 d2) k = 1 := by
  induction d2 generalizing d1 with
  | nil => simp [hasKey] at h
  | cons p d2 ih =>
      rw [DictWF, List.map_cons, List.nodup_cons] at h2
      rw [dictMerge_cons]
      by_cases hhk : hasKey d2 k = true
      · have hpk : ¬ k = p.1 := by
          intro hc
          exact h2.1 (hc ▸ (hasKey_iff_mem_keys d2 k).mp hhk)
        refine ih _ h2.2 ?_ hhk
        rw [keyCount_dictInsert_ne d1 p.1 k p.2 hpk]
        exact h1
      · simp only [Bool.not_eq_true] at hhk
        have hpk : p.1 = k := by
          simp [hasKey, hhk] at h
          exact h
        subst hpk
        rw [keyCount_dictMerge_not_has _ d2 p.1 hhk, keyCount_dictInsert_self]
        by_cases hd1 : hasKey d1 p.1 = true
        · simp only [hd1, if_true]
          exact Nat.le_antisymm h1 (hasKey_true_keyCount_pos d1 p.1 hd1)
        · simp [hd1]

theorem evict_head_le (cfg : Config) (t : ℚ) :
    ∀ (l : List Reading) (hd : Reading) (tl : List Reading),
      evict cfg t l = hd :: tl → t - hd.timestamp ≤ cfg.max_window_size := by
  intro l
  induction l with
  | nil => intro hd tl h; simp [evict] at h
  | cons r l ih =>
      intro hd tl h
      rw [evict] at h
      by_cases hc : t - r.timestamp > cfg.max_window_size
      · rw [if_pos hc] at h
        exact ih hd tl h
      · rw [if_neg hc] at h
        cases h
        exact le_of_not_lt hc

theorem process_reading_fst_cases (cfg : Config) (stack : List Reading) (t : ℚ)
    (mac : String) (rssi : ℤ) (ag : Option Dict) :
    (process_reading cfg stack t mac rssi ag).1 = evict cfg t (stack ++ [⟨t, mac, rssi⟩])
      ∨ (process_reading cfg stack t mac rssi ag).1 = [] := by
  rw [process_reading]
  by_cases hv : check_valid_window cfg (evict cfg t (stack ++ [⟨t, mac, rssi⟩])) t = false
  · simp [hv]
  · simp only [hv, if_false]
    cases compose_fingerprint_data cfg (evict cfg t (stack ++ [⟨t, mac, rssi⟩])) with
    | error e => simp
    | ok fp0 => cases ag <;> simp

theorem process_reading_step_bound (cfg : Config) (stack : List Reading) (t : ℚ)
    (mac : String) (rssi : ℤ) (ag : Option Dict) (hd : Reading) (tl : List Reading)
    (h : (process_reading cfg stack t mac rssi ag).1 = hd :: tl) :
    t - hd.timestamp ≤ cfg.max_window_size := by
  rcases process_reading_fst_cases cfg stack t mac rssi ag with hc | hc
  · exact evict_head_le cfg t _ hd tl (hc ▸ h)
  · rw [hc] at h; cases h

theorem ingestAll_append (cfg : Config) (l1 l2 : List Reading) :
    ∀ stack, ingestAll cfg stack (l1 ++ l2) = ingestAll cfg (ingestAll cfg stack l1) l2 := by
  induction l1 with
  | nil => intro stack; simp [ingestAll]
  | cons r l1 ih => intro stack; rw [List.cons_append, ingestAll, ingestAll, ih]

theorem composeSensor_below (cfg : Config) (st : List Reading) (mac : String)
    (hn : ¬ cfg.min_entries_per_sensor ≤ ((st.filter (fun r => r.mac_sensor = mac)).length : ℤ)) :
    composeSensor cfg st mac = Except.ok (PyVal.intV cfg.invalid_sensor_value) := by
  unfold composeSensor
  rw [if_neg hn]

theorem composeSensor_invalid_filter (cfg : Config) (st : List Reading) (mac : String)
    (hfm : cfg.filter_method ∉ (["mean", "median", "mode", "max", "min", "tss"] : List String))
    (hn : cfg.min_entries_per_sensor ≤ ((st.filter (fun r => r.mac_sensor = mac)).length : ℤ)) :
    composeSensor cfg st mac = Except.error "Invalid filtering type" := by
  simp only [List.mem_cons, List.mem_singleton, not_or] at hfm
  obtain ⟨h1, h2, h3, h4, h5, h6, _⟩ := hfm
  unfold composeSensor
  rw [if_pos hn, if_neg h1, if_neg h2, if_neg h3, if_neg h4, if_neg h5, if_neg h6]

theorem composeSensor_tss (cfg : Config) (st : List Reading) (mac : String)
    (hfm : cfg.filter_method = "tss")
    (hn : cfg.min_entries_per_sensor ≤ ((st.filter (fun r => r.mac_sensor = mac)).length : ℤ)) :
    composeSensor cfg st mac =
      Except.ok (PyVal.tssV ((st.filter (fun r => r.mac_sensor = mac)).map (fun r => r.rssi))) := by
  unfold composeSensor
  rw [if_pos hn]
  simp [hfm]

theorem composeGo_ok_wf (cfg : Config) (st : List Reading) :
    ∀ (sl : List String) (fp0 fp : Dict), composeGo cfg st sl fp0 = Except.ok fp →
      DictWF fp0 → DictWF fp := by
  intro sl
  induction sl with
  | nil => intro fp0 fp h hwf; rw [composeGo] at h; cases h; exact hwf
  | cons mac sl ih =>
      intro fp0 fp h hwf
      rw [composeGo] at h
      cases hcs : composeSensor cfg st mac with
      | error e => rw [hcs] at h; cases h
      | ok v =>
          rw [hcs] at h
          exact ih _ fp h (DictWF_dictInsert fp0 mac v hwf)

theorem composeGo_hasKey (cfg : Config) (st : List Reading) :
    ∀ (sl : List String) (fp0 fp : Dict), composeGo cfg st sl fp0 = Except.ok fp →
      ∀ m, hasKey fp m = true ↔ (hasKey fp0 m = true ∨ m ∈ sl) := by
  intro sl
  induction sl with
  | nil => intro fp0 fp h m; rw [composeGo] at h; cases h; simp
  | cons mac sl ih =>
      intro fp0 fp h m
      rw [composeGo] at h
      cases hcs : composeSensor cfg st mac with
      | error e => rw [hcs] at h; cases h
      | ok v =>
          rw [hcs] at h
          rw [ih _ fp h m, hasKey_dictInsert]
          simp only [Bool.or_eq_true, decide_eq_true_eq, List.mem_cons]
          tauto

theorem composeGo_get_not_mem (cfg : Config) (st : List Reading) :
    ∀ (sl : List String) (fp0 fp : Dict), composeGo cfg st sl fp0 = Except.ok fp →
      ∀ m, m ∉ sl → dictGet fp m = dictGet fp0 m := by
  intro sl
  induction sl with
  | nil => intro fp0 fp h m _; rw [composeGo] at h; cases h; rfl
  | cons mac sl ih =>
      intro fp0 fp h m hm
      rw [composeGo] at h
      cases hcs : composeSensor cfg st mac with
      | error e => rw [hcs] at h; cases h
      | ok v =>
          rw [hcs] at h
          rw [ih _ fp h m (fun hc => hm (List.mem_cons_of_mem mac hc))]
          exact dictGet_dictInsert_ne fp0 mac m v (fun hc => hm (hc ▸ List.mem_cons_self mac sl))

theorem composeGo_get_mem (cfg : Config) (st : List Reading) :
    ∀ (sl : List String) (fp0 fp : Dict), composeGo cfg st sl fp0 = Except.ok fp →
      ∀ m ∈ sl, ∃ v, composeSensor cfg st m = Except.ok v ∧ dictGet fp m = some v := by
  intro sl
  induction sl with
  | nil => intro fp0 fp h m hm; cases hm
  | cons mac sl ih =>
      intro fp0 fp h m hm
      rw [composeGo] at h
      cases hcs : composeSensor cfg st mac with
      | error e => rw [hcs] at h; cases h
      | ok v =>
          rw [hcs] at h
          by_cases hms : m ∈ sl
          · exact ih _ fp h m hms
          · have hmm : m = mac := by
              rcases List.mem_cons.mp hm with h1 | h1
              · exact h1
              · exact absurd h1 hms
            subst hmm
            refine ⟨v, hcs, ?_⟩
            rw [composeGo_get_not_mem cfg st sl _ fp h m hms]
            exact dictGet_dictInsert_self fp0 m v

theorem composeGo_invalid (cfg : Config) (st : List Reading)
    (hfm : cfg.filter_method ∉ (["mean", "median", "mode", "max", "min", "tss"] : List String)) :
    ∀ (sl : List String) (fp0 : Dict),
      (∃ m ∈ sl, cfg.min_entries_per_sensor ≤ ((st.filter (fun r => r.mac_sensor = m)).length : ℤ)) →
      composeGo cfg st sl fp0 = Except.error "Invalid filtering type" := by
  intro sl
  induction sl with
  | nil => intro fp0 h; simp at h
  | cons mac sl ih =>
      intro fp0 h
      by_cases hm : cfg.min_entries_per_sensor ≤ ((st.filter (fun r => r.mac_sensor = mac)).length : ℤ)
      · rw [composeGo, composeSensor_invalid_filter cfg st mac hfm hm]
      · rw [composeGo, composeSensor_below cfg st mac hm]
        refine ih _ ?_
        rcases h with ⟨m, hml, hmc⟩
        rcases List.mem_cons.mp hml with h1 | h1
        · exact absurd (h1 ▸ hmc) hm
        · exact ⟨m, h1, hmc⟩

theorem composeGo_all_below (cfg : Config) (st : List Reading) :
    ∀ (sl : List String) (fp0 : Dict),
      (∀ m ∈ sl, ¬ cfg.min_entries_per_sensor ≤ ((st.filter (fun r => r.mac_sensor = m)).length : ℤ)) →
      ∃ fp, composeGo cfg st sl fp0 = Except.ok fp := by
  intro sl
  induction sl with
  | nil => intro fp0 _; exact ⟨fp0, rfl⟩
  | cons mac sl ih =>
      intro fp0 h
      rw [composeGo, composeSensor_below cfg st mac (h mac (List.mem_cons_self mac sl))]
      exact ih _ (fun m hm => h m (List.mem_cons_of_mem mac hm))

theorem process_reading_emit (cfg : Config) (stack : List Reading) (t : ℚ)
    (mac : String) (rssi : ℤ) (ag : Option Dict) (s2 : List Reading) (fp : Dict)
    (h : process_reading cfg stack t mac rssi ag = (s2, Except.ok (some fp))) :
    s2 = [] ∧
    check_valid_window cfg (evict cfg t (stack ++ [⟨t, mac, rssi⟩])) t = true ∧
    ∃ fp0, compose_fingerprint_data cfg (evict cfg t (stack ++ [⟨t, mac, rssi⟩])) = Except.ok fp0 ∧
      fp = Option.elim ag (dictInsert fp0 "timestamp" (PyVal.ratV t))
        (fun a => dictMerge a (dictInsert fp0 "timestamp" (PyVal.ratV t))) := by
  rw [process_reading] at h
  by_cases hv : check_valid_window cfg (evict cfg t (stack ++ [⟨t, mac, rssi⟩])) t = false
  · rw [if_pos hv] at h
    cases h
  · rw [if_neg hv] at h
    cases hcomp : compose_fingerprint_data cfg (evict cfg t (stack ++ [⟨t, mac, rssi⟩])) with
    | error e => rw [hcomp] at h; cases h
    | ok fp0 =>
        rw [hcomp] at h
        refine ⟨?_, Bool.not_eq_false _ ▸ hv, fp0, rfl, ?_⟩ <;>
          cases ag <;> simp_all

theorem process_reading_error (cfg : Config) (stack : List Reading) (t : ℚ)
    (mac : String) (rssi : ℤ) (ag : Option Dict) (s2 : List Reading) (e : String)
    (h : process_reading cfg stack t mac rssi ag = (s2, Except.error e)) :
    s2 = [] ∧
    check_valid_window cfg (evict cfg t (stack ++ [⟨t, mac, rssi⟩])) t = true ∧
    compose_fingerprint_data cfg (evict cfg t (stack ++ [⟨t, mac, rssi⟩])) = Except.error e := by
  rw [process_reading] at h
  by_cases hv : check_valid_window cfg (evict cfg t (stack ++ [⟨t, mac, rssi⟩])) t = false
  · rw [if_pos hv] at h
    cases h
  · rw [if_neg hv] at h
    cases hcomp : compose_fingerprint_data cfg (evict cfg t (stack ++ [⟨t, mac, rssi⟩])) with
    | error e2 =>
        rw [hcomp] at h
        refine ⟨?_, Bool.not_eq_false _ ▸ hv, ?_⟩ <;> simp_all
    | ok fp0 =>
        rw [hcomp] at h
        cases ag <;> simp_all

theorem filter_length_mono_of_imp (sl : List String) (p q : String → Bool)
    (h : ∀ a, p a = true → q a = true) :
    (sl.filter p).length ≤ (sl.filter q).length := by
  induction sl with
  | nil => simp
  | cons a sl ih =>
      by_cases hp : p a = true
      · rw [List.filter_cons_of_pos hp, List.filter_cons_of_pos (h a hp)]
        simpa using ih
      · rw [List.filter_cons_of_neg (by simp [hp])]
        by_cases hq : q a = true
        · rw [List.filter_cons_of_pos hq]
          exact le_trans ih (by simp)
        · rw [List.filter_cons_of_neg (by simp [hq])]
          exact ih

/-- Claim C7: for every timestamp `t` and buffer state `B`, if the validity
predicate holds for `B`, it also holds for any buffer obtained from `B` by
appending more readings (with no eviction) while keeping the same right
edge `t` — adding entries can only keep a valid window valid. -/
theorem validity_monotone (cfg : Config) (B ext : List Reading) (t : ℚ)
    (h : check_valid_window cfg B t = true) :
    check_valid_window cfg (B ++ ext) t = true := by
  cases B with
  | nil => rw [check_valid_window] at h; cases h
  | cons b B' =>
      rw [check_valid_window] at h
      rw [List.cons_append, check_valid_window]
      by_cases h1 : t - b.timestamp ≥ cfg.min_window_size
      · rw [if_neg (not_not_intro h1)] at h ⊢
        by_cases h2 :
            (((cfg.sensor_mac_list.filter
              (fun mac => ((((b :: B').filter (fun r => r.mac_sensor = mac)).length : ℤ)
                ≥ cfg.min_entries_per_sensor))).length : ℤ) < cfg.min_valid_sensors)
        · rw [if_pos h2] at h; cases h
        · rw [if_neg ?_]
          · intro hlt
            apply h2
            refine lt_of_le_of_lt ?_ hlt
            simp only [Nat.cast_le]
            refine filter_length_mono_of_imp cfg.sensor_mac_list _ _ ?_
            intro mac hmac
            simp only [decide_eq_true_eq] at hmac ⊢
            refine le_trans hmac ?_
            rw [← List.cons_append, List.filter_append]
            simp
      · rw [if_pos h1] at h
        cases h

/-- Claim C1: for every sequence of calls to `process_reading` with
non-decreasing timestamps, immediately after each call the buffer is either
empty or the just-ingested timestamp minus the oldest buffered timestamp is
at most `max_window_size`; eviction removes head entries strictly older
than `max_window_size` relative to the just-ingested timestamp and uses no
wall-clock time (the bound below in fact holds with or without the
monotonicity hypothesis). -/
theorem eviction_invariant (cfg : Config) (rs : List Reading) (r : Reading)
    (hd : Reading) (tl : List Reading)
    (hmono : (rs ++ [r]).Chain' (fun a b => a.timestamp ≤ b.timestamp))
    (h : ingestAll cfg [] (rs ++ [r]) = hd :: tl) :
    r.timestamp - hd.timestamp ≤ cfg.max_window_size := by
  rw [ingestAll_append] at h
  rw [ingestAll, ingestAll] at h
  exact process_reading_step_bound cfg _ r.timestamp r.mac_sensor r.rssi none hd tl h

/-- Claim C3: for every state and every call to `process_reading`, if a
fingerprint is returned then the buffer is empty immediately after the
call — the entire buffered window is consumed, not only an evicted
prefix. -/
theorem fingerprint_clears_buffer (cfg : Config) (stack : List Reading) (t : ℚ)
    (mac : String) (rssi : ℤ) (ag : Option Dict) (s2 : List Reading) (fp : Dict)
    (h : process_reading cfg stack t mac rssi ag = (s2, Except.ok (some fp))) :
    s2 = [] :=
  (process_reading_emit cfg stack t mac rssi ag s2 fp h).1

/-- Claim C10: if `process_reading` raises the invalid-filter-method error,
the buffer has already been cleared before the raise (the snapshot is taken
and the buffer emptied before reduction runs): the state after the failed
call is an empty buffer, and the window was valid when composition
started. -/
theorem error_clears_buffer (cfg : Config) (stack : List Reading) (t : ℚ)
    (mac : String) (rssi : ℤ) (ag : Option Dict) (s2 : List Reading) (e : String)
    (h : process_reading cfg stack t mac rssi ag = (s2, Except.error e)) :
    s2 = [] ∧ check_valid_window cfg (evict cfg t (stack ++ [⟨t, mac, rssi⟩])) t = true := by
  obtain ⟨h1, h2, _⟩ := process_reading_error cfg stack t mac rssi ag s2 e h
  exact ⟨h1, h2⟩

/-- Claim C9: two engines constructed with identical configuration
parameters, each fed the identical reading sequence through the batch
driver from a fresh (empty) buffer, produce identical fingerprint
sequences — the result is a pure function of configuration and input, with
no wall-clock or other hidden state. -/
theorem engine_deterministic (c1 c2 : Config)
    (h1 : c1.sensor_mac_list = c2.sensor_mac_list)
    (h2 : c1.min_window_size = c2.min_window_size)
    (h3 : c1.max_window_size = c2.max_window_size)
    (h4 : c1.min_entries_per_sensor = c2.min_entries_per_sensor)
    (h5 : c1.min_valid_sensors = c2.min_valid_sensors)
    (h6 : c1.filter_method = c2.filter_method)
    (h7 : c1.invalid_sensor_value = c2.invalid_sensor_value)
    (readings : List Reading) (reset : Bool) :
    process_readings c1 [] readings reset = process_readings c2 [] readings reset := by
  have hc : c1 = c2 := by
    cases c1; cases c2
    simp_all
  rw [hc]

/-- Claim C4: with `filter_method` set to total-signal-sum (the string
`"tss"` in the code), reduction of a sensor with at least
`min_entries_per_sensor` matched entries assigns the sum of
`10^(signal_value/10)` over the matched entries, not floored; in
particular two matched entries with the same signal value `X` yield
exactly `2 * 10^(X/10)` as a real number. -/
theorem tss_unfloored (cfg : Config) (st : List Reading) (mac : String)
    (hfm : cfg.filter_method = "tss")
    (hn : cfg.min_entries_per_sensor ≤ ((st.filter (fun r => r.mac_sensor = mac)).length : ℤ)) :
    ∃ v, composeSensor cfg st mac = Except.ok v ∧
      pyRealValue v = ((st.filter (fun r => r.mac_sensor = mac)).map
        (fun r => (10 : ℝ) ^ ((r.rssi : ℝ) / 10))).sum ∧
      ∀ X : ℤ, (st.filter (fun r => r.mac_sensor = mac)).map (fun r => r.rssi) = [X, X] →
        pyRealValue v = 2 * (10 : ℝ) ^ ((X : ℝ) / 10) := by
  refine ⟨_, composeSensor_tss cfg st mac hfm hn, ?_, ?_⟩
  · rw [pyRealValue, List.map_map]
    rfl
  · intro X hX
    rw [pyRealValue, hX]
    simp only [List.map_cons, List.map_nil, List.sum_cons, List.sum_nil, add_zero]
    ring

/-- Claim C5 (amended): for every `filter_method` outside the recognized
set (`"mean"`, `"median"`, `"mode"`, `"max"`, `"min"`, `"tss"`),
construction succeeds (the configuration is just stored), and an ingest
that reaches fingerprint composition raises the fatal error
`Invalid filtering type` with no partial fingerprint — provided at least
one configured sensor has at least `min_entries_per_sensor` matched
entries in the window, which is guaranteed whenever
`min_valid_sensors ≥ 1`.  The error is never raised unless the window was
valid, i.e. a fingerprint was actually being composed.  When every sensor
is below the threshold (possible only with `min_valid_sensors ≤ 0`), the
call instead returns an all-sentinel fingerprint without error. -/
theorem invalid_filter_behaviour (cfg : Config) (stack : List Reading) (t : ℚ)
    (mac : String) (rssi : ℤ) (ag : Option Dict)
    (hfm : cfg.filter_method ∉ (["mean", "median", "mode", "max", "min", "tss"] : List String)) :
    (check_valid_window cfg (evict cfg t (stack ++ [⟨t, mac, rssi⟩])) t = true →
      (∃ m ∈ cfg.sensor_mac_list, cfg.min_entries_per_sensor ≤
        (((evict cfg t (stack ++ [⟨t, mac, rssi⟩])).filter
            (fun r => r.mac_sensor = m)).length : ℤ)) →
      process_reading cfg stack t mac rssi ag = ([], Except.error "Invalid filtering type")) ∧
    (∀ s2 e, process_reading cfg stack t mac rssi ag = (s2, Except.error e) →
      check_valid_window cfg (evict cfg t (stack ++ [⟨t, mac, rssi⟩])) t = true) ∧
    (check_valid_window cfg (evict cfg t (stack ++ [⟨t, mac, rssi⟩])) t = true →
      (∀ m ∈ cfg.sensor_mac_list, ¬ cfg.min_entries_per_sensor ≤
        (((evict cfg t (stack ++ [⟨t, mac, rssi⟩])).filter
            (fun r => r.mac_sensor = m)).length : ℤ)) →
      ∃ fp, process_reading cfg stack t mac rssi ag = ([], Except.ok (some fp))) := by
  refine ⟨?_, ?_, ?_⟩
  · intro hval hex
    rw [process_reading, if_neg (by rw [hval]; exact fun hc => Bool.true_eq_false ▸ hc)]
    simp only [compose_fingerprint_data]
    rw [composeGo_invalid cfg _ hfm cfg.sensor_mac_list [] hex]
  · intro s2 e h
    exact (process_reading_error cfg stack t mac rssi ag s2 e h).2.1
  · intro hval hall
    obtain ⟨fp0, hfp0⟩ := composeGo_all_below cfg _ cfg.sensor_mac_list [] hall
    rw [process_reading, if_neg (by rw [hval]; exact fun hc => Bool.true_eq_false ▸ hc)]
    simp only [compose_fingerprint_data]
    rw [hfp0]
    cases ag with
    | none => exact ⟨_, rfl⟩
    | some a => exact ⟨_, rfl⟩

/-- Claim C6 (amended): every fingerprint returned by `process_reading`
contains exactly one entry for each configured sensor id — the reduced
value when the sensor has at least `min_entries_per_sensor` matched
entries in the snapshot, otherwise the `invalid_sensor_value` sentinel —
and never omits or duplicates a configured sensor, provided no configured
sensor id is the literal string `"timestamp"` (a sensor named
`"timestamp"` gets its entry overwritten by the fingerprint timestamp;
see the counterexample). -/
theorem sensor_completeness (cfg : Config) (stack : List Reading) (t : ℚ)
    (mac : String) (rssi : ℤ) (ag : Option Dict) (s2 : List Reading) (fp : Dict)
    (hts : "timestamp" ∉ cfg.sensor_mac_list)
    (hwf : ∀ a, ag = some a → DictWF a)
    (h : process_reading cfg stack t mac rssi ag = (s2, Except.ok (some fp))) :
    ∀ m ∈ cfg.sensor_mac_list,
      keyCount fp m = 1 ∧
      ((((evict cfg t (stack ++ [⟨t, mac, rssi⟩])).filter
            (fun r => r.mac_sensor = m)).length : ℤ) < cfg.min_entries_per_sensor →
        dictGet fp m = some (PyVal.intV cfg.invalid_sensor_value)) ∧
      (cfg.min_entries_per_sensor ≤
          (((evict cfg t (stack ++ [⟨t, mac, rssi⟩])).filter
            (fun r => r.mac_sensor = m)).length : ℤ) →
        ∃ v, composeSensor cfg (evict cfg t (stack ++ [⟨t, mac, rssi⟩])) m = Except.ok v ∧
          dictGet fp m = some v) := by
  intro m hm
  obtain ⟨-, -, fp0, hcomp, hfp⟩ := process_reading_emit cfg stack t mac rssi ag s2 fp h
  rw [compose_fingerprint_data] at hcomp
  have hmts : m ≠ "timestamp" := fun hc => hts (hc ▸ hm)
  have hwf0 : DictWF fp0 :=
    composeGo_ok_wf cfg _ cfg.sensor_mac_list [] fp0 hcomp (by simp [DictWF])
  obtain ⟨v, hv, hget0⟩ := composeGo_get_mem cfg _ cfg.sensor_mac_list [] fp0 hcomp m hm
  have hwf1 : DictWF (dictInsert fp0 "timestamp" (PyVal.ratV t)) :=
    DictWF_dictInsert fp0 "timestamp" (PyVal.ratV t) hwf0
  have hget1 : dictGet (dictInsert fp0 "timestamp" (PyVal.ratV t)) m = some v := by
    rw [dictGet_dictInsert_ne fp0 "timestamp" m (PyVal.ratV t) hmts]
    exact hget0
  have hhk0 : hasKey fp0 m = true :=
    (composeGo_hasKey cfg _ cfg.sensor_mac_list [] fp0 hcomp m).mpr (Or.inr hm)
  have hhk1 : hasKey (dictInsert fp0 "timestamp" (PyVal.ratV t)) m = true := by
    rw [hasKey_dictInsert]
    simp [hhk0]
  have hgetfp : dictGet fp m = some v := by
    cases ag with
    | none => rw [hfp]; exact hget1
    | some a =>
        rw [hfp]
        simp only [Option.elim]
        rw [dictGet_dictMerge a _ m hwf1, if_pos hhk1]
        exact hget1
  have hcount : keyCount fp m = 1 := by
    cases ag with
    | none =>
        rw [hfp]
        exact Nat.le_antisymm (DictWF_keyCount_le_one _ m hwf1)
          (hasKey_true_keyCount_pos _ m hhk1)
    | some a =>
        rw [hfp]
        simp only [Option.elim]
        exact keyCount_dictMerge_has a _ m hwf1
          (DictWF_keyCount_le_one a m (hwf a rfl)) hhk1
  refine ⟨hcount, ?_, ?_⟩
  · intro hlt
    rw [composeSensor_below cfg _ m (not_le_of_lt hlt)] at hv
    cases hv
    exact hgetfp
  · intro _
    exact ⟨v, hv, hgetfp⟩

theorem hasKey_dictGet_isSome (d : Dict) (k : String) :
    hasKey d k = true → ∃ v, dictGet d k = some v := by
  induction d with
  | nil => intro h; cases h
  | cons p d ih =>
      intro h
      by_cases hp : p.1 = k
      · exact ⟨p.2, by rw [dictGet, if_pos hp]⟩
      · rw [hasKey] at h
        simp only [hp, decide_eq_false hp, Bool.false_or] at h
        obtain ⟨v, hv⟩ := ih h
        exact ⟨v, by rw [dictGet, if_neg hp]; exact hv⟩

/-- Claim C8: when `process_reading` emits a fingerprint and extra fields
are supplied, the result equals the extra fields overwritten by the
fingerprint keys: the fingerprint value wins for `timestamp` and for every
configured sensor id (the result agrees with the fingerprint of the same
call made without extras), and every extra field whose key does not occur
in the fingerprint appears unchanged in the result. -/
theorem extra_fields_merge (cfg : Config) (stack : List Reading) (t : ℚ)
    (mac : String) (rssi : ℤ) (a : Dict) (s2 s0 : List Reading) (res res0 : Dict)
    (hres : process_reading cfg stack t mac rssi (some a) = (s2, Except.ok (some res)))
    (hres0 : process_reading cfg stack t mac rssi none = (s0, Except.ok (some res0))) :
    dictGet res "timestamp" = some (PyVal.ratV t) ∧
    (∀ m ∈ cfg.sensor_mac_list, dictGet res m = dictGet res0 m) ∧
    (∀ k, dictGet res0 k = none → dictGet res k = dictGet a k) := by
  obtain ⟨-, -, fp0, hcomp, hfp⟩ := process_reading_emit cfg stack t mac rssi (some a) s2 res hres
  obtain ⟨-, -, fp0b, hcompb, hfpb⟩ := process_reading_emit cfg stack t mac rssi none s0 res0 hres0
  rw [hcomp] at hcompb
  cases hcompb
  simp only [Option.elim] at hfp hfpb
  rw [compose_fingerprint_data] at hcomp
  have hwf0 : DictWF fp0 :=
    composeGo_ok_wf cfg _ cfg.sensor_mac_list [] fp0 hcomp (by simp [DictWF])
  have hwf1 : DictWF (dictInsert fp0 "timestamp" (PyVal.ratV t)) :=
    DictWF_dictInsert fp0 "timestamp" (PyVal.ratV t) hwf0
  refine ⟨?_, ?_, ?_⟩
  · rw [hfp, dictGet_dictMerge a _ "timestamp" hwf1,
      if_pos (by rw [hasKey_dictInsert]; simp), dictGet_dictInsert_self]
  · intro m hm
    obtain ⟨v, hv, hget0⟩ := composeGo_get_mem cfg _ cfg.sensor_mac_list [] fp0 hcomp m hm
    have hhk1 : hasKey (dictInsert fp0 "timestamp" (PyVal.ratV t)) m = true := by
      rw [hasKey_dictInsert]
      simp [(composeGo_hasKey cfg _ cfg.sensor_mac_list [] fp0 hcomp m).mpr (Or.inr hm)]
    rw [hfp, hfpb, dictGet_dictMerge a _ m hwf1, if_pos hhk1]
  · intro k hk
    rw [hfpb] at hk
    have hhk1 : hasKey (dictInsert fp0 "timestamp" (PyVal.ratV t)) k = false := by
      rcases hhk : hasKey (dictInsert fp0 "timestamp" (PyVal.ratV t)) k with _ | _
      · rfl
      · obtain ⟨v, hv⟩ := hasKey_dictGet_isSome _ k hhk
        rw [hv] at hk
        cases hk
    rw [hfp, dictGet_dictMerge a _ k hwf1, hhk1]
    simp

/-- Claim C2: with sensors `[A, B]`, `min_entries_per_sensor = 2`,
`min_valid_sensors = 2`, `min_window_size = 1`, `max_window_size = 10`,
`filter_method = mean`, `invalid_sensor_value = 100`, starting from an
empty buffer, ingesting `(0, A, -40)`, `(0.2, B, -50)`, `(0.5, A, -44)`,
`(1.0, B, -52)` returns absent on the first three calls and, on the
`t = 1.0` call, the fingerprint `{A: -42, B: -51, timestamp: 1.0}` (each
sensor value the floor of the arithmetic mean of its readings), leaving
the buffer empty. -/
theorem mean_reduction_example :
    process_reading (⟨["A", "B"], 1, 10, 2, 2, "mean", 100⟩ : Config)
        [] 0 "A" (-40) none = ([⟨0, "A", -40⟩], Except.ok none) ∧
    process_reading (⟨["A", "B"], 1, 10, 2, 2, "mean", 100⟩ : Config)
        [⟨0, "A", -40⟩] (1/5) "B" (-50) none
      = ([⟨0, "A", -40⟩, ⟨1/5, "B", -50⟩], Except.ok none) ∧
    process_reading (⟨["A", "B"], 1, 10, 2, 2, "mean", 100⟩ : Config)
        [⟨0, "A", -40⟩, ⟨1/5, "B", -50⟩] (1/2) "A" (-44) none
      = ([⟨0, "A", -40⟩, ⟨1/5, "B", -50⟩, ⟨1/2, "A", -44⟩], Except.ok none) ∧
    process_reading (⟨["A", "B"], 1, 10, 2, 2, "mean", 100⟩ : Config)
        [⟨0, "A", -40⟩, ⟨1/5, "B", -50⟩, ⟨1/2, "A", -44⟩] 1 "B" (-52) none
      = ([], Except.ok (some [("A", PyVal.intV (-42)), ("B", PyVal.intV (-51)),
          ("timestamp", PyVal.ratV 1)])) := by
  refine ⟨?_, ?_, ?_, ?_⟩ <;>
    norm_num +decide [process_reading, evict, check_valid_window, compose_fingerprint_data,
      composeGo, composeSensor, meanFloor, dictInsert, List.filter_cons, Except.map]

/-- Counterexample to claim C5 as stated: with `min_valid_sensors = 0` and
an unrecognized `filter_method`, an ingest whose window is valid (so it
reaches fingerprint composition) raises nothing and returns an
all-sentinel fingerprint, because no sensor reaches the filter branch. -/
theorem invalid_filter_cex :
    check_valid_window (⟨["A"], 1, 10, 1, 0, "bogus", 100⟩ : Config)
        (evict (⟨["A"], 1, 10, 1, 0, "bogus", 100⟩ : Config) 1
          ([⟨0, "B", -40⟩] ++ [⟨1, "B", -41⟩])) 1 = true ∧
    process_reading (⟨["A"], 1, 10, 1, 0, "bogus", 100⟩ : Config)
        [⟨0, "B", -40⟩] 1 "B" (-41) none
      = ([], Except.ok (some [("A", PyVal.intV 100), ("timestamp", PyVal.ratV 1)])) := by
  constructor <;>
    norm_num +decide [process_reading, evict, check_valid_window, compose_fingerprint_data,
      composeGo, composeSensor, dictInsert, List.filter_cons]

/-- Counterexample to claim C6 as stated: with the configured sensor id
literally named `"timestamp"`, the reduced value (`mean` gives `-42`) is
computed but then overwritten by the fingerprint timestamp, so the
returned fingerprint's entry for that sensor is `1.0` (the timestamp) and
not the reduced value. -/
theorem sensor_completeness_cex :
    process_reading (⟨["timestamp"], 1, 10, 1, 1, "mean", 100⟩ : Config)
        [⟨0, "timestamp", -40⟩] 1 "timestamp" (-44) none
      = ([], Except.ok (some [("timestamp", PyVal.ratV 1)])) ∧
    composeSensor (⟨["timestamp"], 1, 10, 1, 1, "mean", 100⟩ : Config)
        (evict (⟨["timestamp"], 1, 10, 1, 1, "mean", 100⟩ : Config) 1
          ([⟨0, "timestamp", -40⟩] ++ [⟨1, "timestamp", -44⟩])) "timestamp"
      = Except.ok (PyVal.intV (-42)) ∧
    dictGet [("timestamp", PyVal.ratV 1)] "timestamp" ≠ some (PyVal.intV (-42)) := by
  refine ⟨?_, ?_, by simp [dictGet]⟩ <;>
    norm_num +decide [process_reading, evict, check_valid_window, compose_fingerprint_data,
      composeGo, composeSensor, meanFloor, dictInsert, List.filter_cons, Except.map]

theorem eviction_invariant_witness :
    (⟨1, "A", -41⟩ : Reading).timestamp - (⟨0, "A", -40⟩ : Reading).timestamp ≤
      (⟨["A"], 5, 10, 5, 1, "mean", 100⟩ : Config).max_window_size :=
  eviction_invariant ⟨["A"], 5, 10, 5, 1, "mean", 100⟩ [⟨0, "A", -40⟩] ⟨1, "A", -41⟩
    ⟨0, "A", -40⟩ [⟨1, "A", -41⟩]
    (by simp)
    (by simp [ingestAll, process_reading, evict, check_valid_window])

theorem fingerprint_clears_buffer_witness : ([] : List Reading) = [] :=
  fingerprint_clears_buffer ⟨["A"], 1, 10, 1, 1, "tss", 100⟩ [⟨0, "A", -40⟩] 1 "A" (-41) none
    [] [("A", PyVal.tssV [-40, -41]), ("timestamp", PyVal.ratV 1)]
    (by simp [process_reading, evict, check_valid_window, compose_fingerprint_data,
      composeGo, composeSensor, dictInsert, List.filter_cons])

theorem tss_unfloored_witness :
    ∃ v, composeSensor (⟨["A"], 1, 10, 2, 1, "tss", 100⟩ : Config)
        [⟨0, "A", -40⟩, ⟨1, "A", -40⟩] "A" = Except.ok v ∧
      pyRealValue v = ((([⟨0, "A", -40⟩, ⟨1, "A", -40⟩] : List Reading).filter
          (fun r => r.mac_sensor = "A")).map (fun r => (10 : ℝ) ^ ((r.rssi : ℝ) / 10))).sum ∧
      ∀ X : ℤ, (([⟨0, "A", -40⟩, ⟨1, "A", -40⟩] : List Reading).filter
          (fun r => r.mac_sensor = "A")).map (fun r => r.rssi) = [X, X] →
        pyRealValue v = 2 * (10 : ℝ) ^ ((X : ℝ) / 10) :=
  tss_unfloored ⟨["A"], 1, 10, 2, 1, "tss", 100⟩ [⟨0, "A", -40⟩, ⟨1, "A", -40⟩] "A"
    rfl (by simp [List.filter_cons])

theorem validity_monotone_witness :
    check_valid_window (⟨["A"], 1, 10, 1, 1, "mean", 100⟩ : Config)
      ([⟨0, "A", -40⟩, ⟨1, "A", -41⟩] ++ [⟨2, "A", -42⟩]) 1 = true :=
  validity_monotone ⟨["A"], 1, 10, 1, 1, "mean", 100⟩ [⟨0, "A", -40⟩, ⟨1, "A", -41⟩]
    [⟨2, "A", -42⟩] 1 (by simp [check_valid_window, List.filter_cons])

theorem engine_deterministic_witness :
    process_readings (⟨["A"], 1, 10, 1, 1, "mean", 100⟩ : Config) [] [⟨0, "A", -40⟩] false
      = process_readings (⟨["A"], 1, 10, 1, 1, "mean", 100⟩ : Config) [] [⟨0, "A", -40⟩] false :=
  engine_deterministic ⟨["A"], 1, 10, 1, 1, "mean", 100⟩ ⟨["A"], 1, 10, 1, 1, "mean", 100⟩
    rfl rfl rfl rfl rfl rfl rfl [⟨0, "A", -40⟩] false

theorem error_clears_buffer_witness :
    ([] : List Reading) = [] ∧
    check_valid_window (⟨["A"], 1, 10, 1, 1, "bogus", 100⟩ : Config)
      (evict (⟨["A"], 1, 10, 1, 1, "bogus", 100⟩ : Config) 1
        ([⟨0, "A", -40⟩] ++ [⟨1, "A", -41⟩])) 1 = true :=
  error_clears_buffer ⟨["A"], 1, 10, 1, 1, "bogus", 100⟩ [⟨0, "A", -40⟩] 1 "A" (-41) none
    [] "Invalid filtering type"
    (by simp [process_reading, evict, check_valid_window, compose_fingerprint_data,
      composeGo, composeSensor, dictInsert, List.filter_cons])

theorem invalid_filter_behaviour_witness :
    (check_valid_window (⟨["A"], 1, 10, 1, 1, "bogus", 100⟩ : Config)
        (evict (⟨["A"], 1, 10, 1, 1, "bogus", 100⟩ : Config) 1
          ([⟨0, "A", -40⟩] ++ [⟨1, "A", -41⟩])) 1 = true →
      (∃ m ∈ (⟨["A"], 1, 10, 1, 1, "bogus", 100⟩ : Config).sensor_mac_list,
        (⟨["A"], 1, 10, 1, 1, "bogus", 100⟩ : Config).min_entries_per_sensor ≤
        (((evict (⟨["A"], 1, 10, 1, 1, "bogus", 100⟩ : Config) 1
            ([⟨0, "A", -40⟩] ++ [⟨1, "A", -41⟩])).filter
            (fun r => r.mac_sensor = m)).length : ℤ)) →
      process_reading (⟨["A"], 1, 10, 1, 1, "bogus", 100⟩ : Config)
          [⟨0, "A", -40⟩] 1 "A" (-41) none
        = ([], Except.error "Invalid filtering type")) ∧
    (∀ s2 e, process_reading (⟨["A"], 1, 10, 1, 1, "bogus", 100⟩ : Config)
          [⟨0, "A", -40⟩] 1 "A" (-41) none = (s2, Except.error e) →
      check_valid_window (⟨["A"], 1, 10, 1, 1, "bogus", 100⟩ : Config)
        (evict (⟨["A"], 1, 10, 1, 1, "bogus", 100⟩ : Config) 1
          ([⟨0, "A", -40⟩] ++ [⟨1, "A", -41⟩])) 1 = true) ∧
    (check_valid_window (⟨["A"], 1, 10, 1, 1, "bogus", 100⟩ : Config)
        (evict (⟨["A"], 1, 10, 1, 1, "bogus", 100⟩ : Config) 1
          ([⟨0, "A", -40⟩] ++ [⟨1, "A", -41⟩])) 1 = true →
      (∀ m ∈ (⟨["A"], 1, 10, 1, 1, "bogus", 100⟩ : Config).sensor_mac_list,
        ¬ (⟨["A"], 1, 10, 1, 1, "bogus", 100⟩ : Config).min_entries_per_sensor ≤
        (((evict (⟨["A"], 1, 10, 1, 1, "bogus", 100⟩ : Config) 1
            ([⟨0, "A", -40⟩] ++ [⟨1, "A", -41⟩])).filter
            (fun r => r.mac_sensor = m)).length : ℤ)) →
      ∃ fp, process_reading (⟨["A"], 1, 10, 1, 1, "bogus", 100⟩ : Config)
          [⟨0, "A", -40⟩] 1 "A" (-41) none = ([], Except.ok (some fp))) :=
  invalid_filter_behaviour ⟨["A"], 1, 10, 1, 1, "bogus", 100⟩ [⟨0, "A", -40⟩] 1 "A" (-41) none
    (by decide)

theorem sensor_completeness_witness :
    keyCount [("A", PyVal.tssV [-40, -41]), ("timestamp", PyVal.ratV 1)] "A" = 1 ∧
    ((((evict (⟨["A"], 1, 10, 1, 1, "tss", 100⟩ : Config) 1
          ([⟨0, "A", -40⟩] ++ [⟨1, "A", -41⟩])).filter
          (fun r => r.mac_sensor = "A")).length : ℤ) <
        (⟨["A"], 1, 10, 1, 1, "tss", 100⟩ : Config).min_entries_per_sensor →
      dictGet [("A", PyVal.tssV [-40, -41]), ("timestamp", PyVal.ratV 1)] "A"
        = some (PyVal.intV (⟨["A"], 1, 10, 1, 1, "tss", 100⟩ : Config).invalid_sensor_value)) ∧
    ((⟨["A"], 1, 10, 1, 1, "tss", 100⟩ : Config).min_entries_per_sensor ≤
        (((evict (⟨["A"], 1, 10, 1, 1, "tss", 100⟩ : Config) 1
          ([⟨0, "A", -40⟩] ++ [⟨1, "A", -41⟩])).filter
          (fun r => r.mac_sensor = "A")).length : ℤ) →
      ∃ v, composeSensor (⟨["A"], 1, 10, 1, 1, "tss", 100⟩ : Config)
          (evict (⟨["A"], 1, 10, 1, 1, "tss", 100⟩ : Config) 1
            ([⟨0, "A", -40⟩] ++ [⟨1, "A", -41⟩])) "A" = Except.ok v ∧
        dictGet [("A", PyVal.tssV [-40, -41]), ("timestamp", PyVal.ratV 1)] "A" = some v) :=
  sensor_completeness ⟨["A"], 1, 10, 1, 1, "tss", 100⟩ [⟨0, "A", -40⟩] 1 "A" (-41) none
    [] [("A", PyVal.tssV [-40, -41]), ("timestamp", PyVal.ratV 1)]
    (by decide)
    (fun a h => nomatch h)
    (by simp [process_reading, evict, check_valid_window, compose_fingerprint_data,
      composeGo, composeSensor, dictInsert, List.filter_cons])
    "A" (by simp)

theorem extra_fields_merge_witness :
    dictGet [("extra", PyVal.intV 7), ("A", PyVal.tssV [-40, -41]), ("timestamp", PyVal.ratV 1)]
        "timestamp" = some (PyVal.ratV 1) ∧
    (∀ m ∈ (⟨["A"], 1, 10, 1, 1, "tss", 100⟩ : Config).sensor_mac_list,
      dictGet [("extra", PyVal.intV 7), ("A", PyVal.tssV [-40, -41]),
          ("timestamp", PyVal.ratV 1)] m
        = dictGet [("A", PyVal.tssV [-40, -41]), ("timestamp", PyVal.ratV 1)] m) ∧
    (∀ k, dictGet [("A", PyVal.tssV [-40, -41]), ("timestamp", PyVal.ratV 1)] k = none →
      dictGet [("extra", PyVal.intV 7), ("A", PyVal.tssV [-40, -41]),
          ("timestamp", PyVal.ratV 1)] k
        = dictGet [("extra", PyVal.intV 7), ("A", PyVal.intV 0)] k) :=
  extra_fields_merge ⟨["A"], 1, 10, 1, 1, "tss", 100⟩ [⟨0, "A", -40⟩] 1 "A" (-41)
    [("extra", PyVal.intV 7), ("A", PyVal.intV 0)] [] []
    [("extra", PyVal.intV 7), ("A", PyVal.tssV [-40, -41]), ("timestamp", PyVal.ratV 1)]
    [("A", PyVal.tssV [-40, -41]), ("timestamp", PyVal.ratV 1)]
    (by simp [process_reading, evict, check_valid_window, compose_fingerprint_data,
      composeGo, composeSensor, dictInsert, dictMerge, List.filter_cons])
    (by simp [process_reading, evict, check_valid_window, compose_fingerprint_data,
      composeGo, composeSensor, dictInsert, List.filter_cons])

end CaptureWindow
